import Mathlib

/-!
Verification of the mention-processing pipeline of the nestjs-twitter-bot
repository.  The repository ships several historical variants of the same
service; the ones modelled here are:

* `TS1`  — the first `TwitterService` in `src/twitter/twitter.service.ts`
  (daily maximum 17, in-memory `respondedTweets` set, per-mention budget
  check inside the processing loop);
* `PG`   — the PostgreSQL-backed `TwitterService` in `src/app.module.ts`
  (daily maximum 100, `processed_tweets` table, budget checked only at
  cycle start);
* `HH`   — the second `TwitterService` in `src/twitter/twitter.service.ts`
  (daily maximum 100, media/image handling, `newRespondedTweets` batch
  commit, per-mention budget check).

External calls (Twitter API, OpenAI, coin-creation HTTP service, image
download) are modelled by an environment of oracles giving each call's
outcome; all state mutation is explicit.  Tweet ids are modelled as `Nat`
(Twitter ids are decimal strings ordered numerically).
-/

namespace TwBot

/-- Calendar date as used through JavaScript `Date`; `day` is the
day-of-month, which is what `Date.getDate()` returns. -/
structure CalDate where
  year : Nat
  month : Nat
  day : Nat
deriving DecidableEq, Repr

/-- Strict calendar order on dates (lexicographic year, month, day);
this is the "D2 > D1" of the specification. -/
def CalDate.before (a b : CalDate) : Bool :=
  (a.year < b.year) ||
  (a.year == b.year && (a.month < b.month ||
    (a.month == b.month && a.day < b.day)))

/-- One mention as delivered by the feed: id, author id, text, and the
attachment media keys (`tweet.attachments.media_keys`). -/
structure Tweet where
  id : Nat
  author_id : Nat
  text : String
  mediaKeys : List Nat
deriving DecidableEq, Repr

/-- Media kind from the feed's includes index (`media.type`). -/
inductive MediaKind where
  | photo
  | other
deriving DecidableEq, Repr

instance : BEq MediaKind := ⟨fun a b => decide (a = b)⟩

/-- One entry of the includes index (`includes.media`). -/
structure Media where
  media_key : Nat
  kind : MediaKind
  url : Option String
deriving DecidableEq, Repr

/-- The result of one poll (`mentions.data` in the code): the mention
list, newest first, plus the includes index. -/
structure Batch where
  data : List Tweet
  media : List Media
  users : List (Nat × String)
deriving DecidableEq, Repr

/-- Structured extraction result of `analyzeTokenDetails`. -/
structure TokenDetails where
  name : String
  symbol : String
  description : Option String
deriving DecidableEq, Repr

/-- Result shape of `createCoin`: `{ success: boolean; mintAddress?: string }`. -/
structure CoinResult where
  success : Bool
  mintAddress : Option String
deriving DecidableEq, Repr

/-- A row of the `processed_tweets` table
(`tweet_id PRIMARY KEY, processed_at`). -/
structure ProcessedRecord where
  tweet_id : Nat
  processed_at : Nat
deriving DecidableEq, Repr

/-- Instrumentation record of one reply-send attempt: which tweet was
replied to and the value of `repliesToday` at the instant
`replyToTweet` is invoked. -/
structure SendEvent where
  tweetId : Nat
  countAtSend : Nat
deriving DecidableEq, Repr

/-- Case-insensitive "pattern is an initial segment of the text"
test on character lists (ASCII lowering, as the `i` regex flag). -/
def startsWithCI : List Char → List Char → Bool
  | [], _ => true
  | _ :: _, [] => false
  | p :: ps, c :: cs => p.toLower == c.toLower && startsWithCI ps cs

/-- Case-sensitive variant of `startsWithCI` (JavaScript
`String.includes` is case sensitive). -/
def startsWithCS : List Char → List Char → Bool
  | [], _ => true
  | _ :: _, [] => false
  | p :: ps, c :: cs => p == c && startsWithCS ps cs

/-- Does `pat` occur (case-insensitively) anywhere in `s`? -/
def substrCIAux (pat : List Char) : List Char → Bool
  | [] => startsWithCI pat []
  | c :: cs => startsWithCI pat (c :: cs) || substrCIAux pat cs

/-- Case-insensitive substring test on strings. -/
def containsCI (pat s : String) : Bool :=
  substrCIAux pat.toList s.toList

/-- Case-sensitive occurrence test. -/
def substrCSAux (pat : List Char) : List Char → Bool
  | [] => startsWithCS pat []
  | c :: cs => startsWithCS pat (c :: cs) || substrCSAux pat cs

/-- Case-sensitive substring test, modelling `tweet.text.includes(t.id)`. -/
def containsSub (pat s : String) : Bool :=
  substrCSAux pat.toList s.toList

def tokenChars : List Char := ['t', 'o', 'k', 'e', 'n']

def coinChars : List Char := ['c', 'o', 'i', 'n']

/-- One left-to-right pass of `str.replace(/token|coin/gi, '')`:
at each position try `token` then `coin` case-insensitively; on a match
drop it and continue after the match, otherwise keep the character.
`fuel` bounds the recursion and is instantiated with the input length
(each step consumes at least one character). -/
def stripTC : Nat → List Char → List Char
  | 0, _ => []
  | _, [] => []
  | fuel + 1, c :: cs =>
    if startsWithCI tokenChars (c :: cs) then stripTC fuel (cs.drop 4)
    else if startsWithCI coinChars (c :: cs) then stripTC fuel (cs.drop 3)
    else c :: stripTC fuel cs

/-- JavaScript `String.trim` whitespace test (common whitespace). -/
def isWS (c : Char) : Bool :=
  c == ' ' || c == '\t' || c == '\n' || c == '\r'

/-- Trim whitespace from both ends of a character list. -/
def trimChars (l : List Char) : List Char :=
  ((l.dropWhile isWS).reverse.dropWhile isWS).reverse

/-- The `sanitizeName` helper of `analyzeTokenDetails`:
`(str) => str.replace(/token|coin/gi, '').trim()`. -/
def sanitizeName (s : String) : String :=
  String.mk (trimChars (stripTC s.toList.length s.toList))

/-- JavaScript falsiness of an optional string field of a parsed JSON
object: absent/null or the empty string. -/
def falsy : Option String → Bool
  | none => true
  | some s => s == ""

/-- The validation/sanitization tail of the HH variant's
`analyzeTokenDetails`, applied to the `name`, `symbol` and `description`
fields of the JSON object parsed from the model response:
reject falsy name/symbol, sanitize both, reject empty-after-sanitization,
and null out a falsy description (`result.description || null`). -/
def analyzeTokenDetailsHH (rawName rawSymbol rawDescr : Option String) :
    Option TokenDetails :=
  if falsy rawName || falsy rawSymbol then none
  else
    let n := sanitizeName (rawName.getD "")
    let y := sanitizeName (rawSymbol.getD "")
    if n == "" || y == "" then none
    else some ⟨n, y, if falsy rawDescr then none else rawDescr⟩

/-- The PG variant's `markTweetAsProcessed`:
`INSERT INTO processed_tweets (tweet_id) VALUES ($1) ON CONFLICT DO NOTHING`
against a table with `tweet_id` as primary key; `now` is the
`CURRENT_TIMESTAMP` default of `processed_at`. -/
def markTweetAsProcessed (db : List ProcessedRecord) (id now : Nat) :
    List ProcessedRecord :=
  if db.any (fun r => r.tweet_id == id) then db else db ++ [⟨id, now⟩]

/-- Addition to the in-memory `respondedTweets` set, modelled on a
duplicate-free list. -/
def insertId (l : List Nat) (i : Nat) : List Nat :=
  if i ∈ l then l else l ++ [i]

/-- Outcomes of the throwing steps of the HH variant's `createCoin`.
`keyDecodeOk` — `bs58.decode` + `Keypair.fromSecretKey` + signing;
`authResult` — the `/auth/verify-signature` POST (`none` = the request
threw); inside it, the optional `token` field of the response body
(a missing token makes `jwtToken.substring(0, 10)` throw);
`createResult` — the `/coin/create` POST (`none` = the request threw),
carrying the optional `mintAddress` of the response body. -/
structure CreateCoinEnv where
  keyDecodeOk : Bool
  authResult : Option (Option String)
  createResult : Option (Option String)

/-- The HH variant's `createCoin`, as a function of its step outcomes.
The whole body runs inside `try`/`catch`; any thrown step yields
`{ success: false }`.  On a completed submission the code returns
`{ success: true, mintAddress: createCoinResponse.data.mintAddress }`
without checking that the field is present. -/
def createCoinHH (env : CreateCoinEnv) : CoinResult :=
  if !env.keyDecodeOk then ⟨false, none⟩
  else
    match env.authResult with
    | none => ⟨false, none⟩
    | some tokenOpt =>
      match tokenOpt with
      | none => ⟨false, none⟩
      | some _tok =>
        match env.createResult with
        | none => ⟨false, none⟩
        | some mint => ⟨true, mint⟩

/-- Outcomes of the external calls a cycle makes, one oracle per call.
`userId` — TS1's `getUserId`; `fetchFails` — the mention fetch throws
(rate limit or other API error, both return `null`); `intent` — the
boolean outcome of `analyzeTokenIntent` per tweet text; `details` — the
outcome of `analyzeTokenDetails` per tweet text; `coin` — the outcome of
`createCoin` per extracted details; `replyOk` — whether `replyToTweet`
succeeds for a given tweet id; `downloadOk` — whether `downloadImage`
succeeds for a given url; `now` — the DB timestamp for new
`processed_tweets` rows. -/
structure Env where
  userId : Option Nat
  fetchFails : Bool
  intent : String → Bool
  details : String → Option TokenDetails
  coin : TokenDetails → CoinResult
  replyOk : Nat → Bool
  downloadOk : String → Bool
  now : Nat

/-- Mutable service state of the TS1 variant: `respondedTweets`,
`repliesToday`, `lastReset`, `lastProcessedTweetId`, `isFirstRun`. -/
structure BotState where
  respondedTweets : List Nat
  repliesToday : Nat
  lastReset : CalDate
  lastProcessedTweetId : Option Nat
  isFirstRun : Bool
deriving DecidableEq, Repr

/-- Mutable service state of the PG variant: the `processed_tweets`
table replaces the in-memory set. -/
structure PgState where
  db : List ProcessedRecord
  repliesToday : Nat
  lastReset : CalDate
  lastProcessedTweetId : Option Nat
  isFirstRun : Bool
deriving DecidableEq, Repr

/-- The `checkAndResetDaily` method: reset the counter when `now.getDate()`
(day-of-month) differs from the stored reset date's day-of-month. -/
def checkAndResetDaily (now : CalDate) (s : BotState) : BotState :=
  if now.day ≠ s.lastReset.day then
    { s with repliesToday := 0, lastReset := now }
  else s

/-- The PG variant's `checkAndResetDaily` (same body, other state). -/
def checkAndResetDailyPg (now : CalDate) (s : PgState) : PgState :=
  if now.day ≠ s.lastReset.day then
    { s with repliesToday := 0, lastReset := now }
  else s

/-- The `checkMentions` fetch: `isFirstRun` is cleared before the API call and
caps the first fetch at 5 results; `since_id` (when a cursor exists)
restricts the fetch to strictly larger ids; a throwing call (`fetchFails`)
returns `null` and leaves the cursor unchanged; on a non-empty result the
cursor advances to the first (newest) id.  `timeline` is the feed's
newest-first mention timeline.  Returns the batch (or `none`), the new
cursor and the new `isFirstRun`. -/
def fetchMentions (timeline : Batch) (fetchFails : Bool)
    (cursor : Option Nat) (isFirstRun : Bool) :
    Option Batch × Option Nat × Bool :=
  let base :=
    match cursor with
    | some c => timeline.data.filter (fun t => c < t.id)
    | none => timeline.data
  let res := if isFirstRun then base.take 5 else base
  if fetchFails then (none, cursor, false)
  else
    let cursor2 :=
      match res.head? with
      | some t => some t.id
      | none => cursor
    (some { timeline with data := res }, cursor2, false)

/-- The "reply to an already handled tweet" heuristic:
`mentions.data.some((t) => tweet.text.includes(t.id) && respondedTweets.has(t.id))`. -/
def replyHandledHeur (batchData : List Tweet) (responded : List Nat)
    (t : Tweet) : Bool :=
  batchData.any (fun u =>
    containsSub (toString u.id) t.text && responded.contains u.id)

/-- Loop-local state of a TS1 cycle, with instrumentation: `events`
records each reply-send attempt with the counter value at that instant;
`visited` records the tweets in processing order. -/
structure TS1Loop where
  responded : List Nat
  replies : Nat
  events : List SendEvent
  visited : List Nat
deriving DecidableEq, Repr

/-- Result of one loop body iteration: continue with the next mention,
or break out of the loop. -/
inductive StepOut (σ : Type) where
  | cont (s : σ)
  | brk (s : σ)
deriving DecidableEq, Repr

/-- One iteration of the TS1 mention loop (`checkMentionsJob`, first
variant of `twitter.service.ts`): skip self-authored, skip already
responded, commit-and-skip replies to handled tweets, break once
`repliesToday >= 17`, commit-and-skip negative intent, skip failed
extraction, otherwise create the coin, attempt exactly one reply
(success or failure text) and on reply success increment the counter
and commit. -/
def processTweetTS1 (env : Env) (uid : Nat) (batchData : List Tweet)
    (t : Tweet) (s0 : TS1Loop) : StepOut TS1Loop :=
  let s := { s0 with visited := s0.visited ++ [t.id] }
  if t.author_id == uid then .cont s
  else if s.responded.contains t.id then .cont s
  else if replyHandledHeur batchData s.responded t then
    .cont { s with responded := insertId s.responded t.id }
  else if 17 ≤ s.replies then .brk s
  else if !env.intent t.text then
    .cont { s with responded := insertId s.responded t.id }
  else
    match env.details t.text with
    | none => .cont s
    | some d =>
      let _coinResult := env.coin d
      let s1 := { s with events := s.events ++ [⟨t.id, s.replies⟩] }
      if env.replyOk t.id then
        .cont { s1 with replies := s1.replies + 1,
                        responded := insertId s1.responded t.id }
      else .cont s1

/-- The TS1 `for … of [...mentions.data].reverse()` loop with its
mid-loop `break`. -/
def runTS1Loop (env : Env) (uid : Nat) (batchData : List Tweet) :
    List Tweet → TS1Loop → TS1Loop
  | [], s => s
  | t :: ts, s =>
    match processTweetTS1 env uid batchData t s with
    | .cont s2 => runTS1Loop env uid batchData ts s2
    | .brk s2 => s2

/-- The TS1 `checkMentionsJob` cycle: resolve the user id (abort on
failure), reset the daily counter, return early once `repliesToday >= 17`,
fetch mentions (abort on `null`), then run the loop over the reversed
batch.  Returns the new state, the send events and the visit order. -/
def checkMentionsJobTS1 (env : Env) (timeline : Batch) (today : CalDate)
    (s : BotState) : BotState × List SendEvent × List Nat :=
  match env.userId with
  | none => (s, [], [])
  | some uid =>
    let s1 := checkAndResetDaily today s
    if 17 ≤ s1.repliesToday then (s1, [], [])
    else
      let fr := fetchMentions timeline env.fetchFails
        s1.lastProcessedTweetId s1.isFirstRun
      let s2 := { s1 with lastProcessedTweetId := fr.2.1,
                          isFirstRun := fr.2.2 }
      match fr.1 with
      | none => (s2, [], [])
      | some b =>
        let l0 : TS1Loop := ⟨s2.respondedTweets, s2.repliesToday, [], []⟩
        let l1 := runTS1Loop env uid b.data b.data.reverse l0
        ({ s2 with respondedTweets := l1.responded,
                   repliesToday := l1.replies },
         l1.events, l1.visited)

/-- Loop-local state of a PG cycle. -/
structure PgLoop where
  db : List ProcessedRecord
  replies : Nat
  events : List SendEvent
  visited : List Nat
deriving DecidableEq, Repr

/-- The photo-attachment predicate of the PG/HH variants:
`media.type === 'photo' && tweet.attachments?.media_keys?.includes(media.media_key)`. -/
def isPhotoOf (t : Tweet) (m : Media) : Bool :=
  m.kind == MediaKind.photo && t.mediaKeys.contains m.media_key

/-- One iteration of the PG mention loop (`checkMentionsJob` in
`app.module.ts`, PostgreSQL variant): skip already-processed rows,
commit-and-skip self-authored, commit-and-skip negative intent, skip
failed extraction; with no photo attached always attempt the
missing-image reply (committing and counting only on reply success);
with a photo, a missing url or a failed download aborts the mention
uncommitted; a successful creation with a mint address attempts the
success reply (committing and counting only on reply success); a failed
creation sends nothing.  There is no budget check in this loop. -/
def processTweetPG (env : Env) (uid : Nat) (media : List Media)
    (t : Tweet) (s0 : PgLoop) : PgLoop :=
  let s := { s0 with visited := s0.visited ++ [t.id] }
  if s.db.any (fun r => r.tweet_id == t.id) then s
  else if t.author_id == uid then
    { s with db := markTweetAsProcessed s.db t.id env.now }
  else if !env.intent t.text then
    { s with db := markTweetAsProcessed s.db t.id env.now }
  else
    match env.details t.text with
    | none => s
    | some d =>
      if !media.any (isPhotoOf t) then
        let s1 := { s with events := s.events ++ [⟨t.id, s.replies⟩] }
        if env.replyOk t.id then
          { s1 with db := markTweetAsProcessed s1.db t.id env.now,
                    replies := s1.replies + 1 }
        else s1
      else
        match media.find? (isPhotoOf t) with
        | none => s
        | some im =>
          match im.url with
          | none => s
          | some u =>
            if !env.downloadOk u then s
            else
              let r := env.coin d
              if r.success && r.mintAddress.isSome then
                let s1 := { s with events := s.events ++ [⟨t.id, s.replies⟩] }
                if env.replyOk t.id then
                  { s1 with db := markTweetAsProcessed s1.db t.id env.now,
                            replies := s1.replies + 1 }
                else s1
              else s

/-- The PG `checkMentionsJob` cycle: reset the daily counter, return
early once `repliesToday >= 100`, abort when the configured user id is
missing, fetch mentions, then fold the loop over the reversed batch
(the PG loop has no `break`). -/
def checkMentionsJobPG (env : Env) (timeline : Batch) (today : CalDate)
    (configUserId : Option Nat) (s : PgState) :
    PgState × List SendEvent × List Nat :=
  let s1 := checkAndResetDailyPg today s
  if 100 ≤ s1.repliesToday then (s1, [], [])
  else
    match configUserId with
    | none => (s1, [], [])
    | some uid =>
      let fr := fetchMentions timeline env.fetchFails
        s1.lastProcessedTweetId s1.isFirstRun
      let s2 := { s1 with lastProcessedTweetId := fr.2.1,
                          isFirstRun := fr.2.2 }
      match fr.1 with
      | none => (s2, [], [])
      | some b =>
        let l0 : PgLoop := ⟨s2.db, s2.repliesToday, [], []⟩
        let l1 := b.data.reverse.foldl
          (fun acc t => processTweetPG env uid b.media t acc) l0
        ({ s2 with db := l1.db, repliesToday := l1.replies },
         l1.events, l1.visited)

/-- Loop-local state of an HH cycle: commits of replied tweets go to
`newResponded` (`newRespondedTweets`), merged into the set after the
loop; the reply-chain heuristic adds directly to `responded`. -/
structure HHLoop where
  responded : List Nat
  newResponded : List Nat
  replies : Nat
  events : List SendEvent
  visited : List Nat
deriving DecidableEq, Repr

/-- One iteration of the HH mention loop (`checkMentionsJob`, second
variant of `twitter.service.ts`): skip self-authored (no commit), skip
already responded, commit-and-skip replies to handled tweets, break once
`repliesToday >= 100`, skip negative intent (no commit in this variant),
skip failed extraction; with no photo attempt the missing-image reply
(counting and recording in `newResponded` only on reply success); with a
photo, a missing url, failed download or failed creation aborts the
mention uncommitted; a successful creation attempts the success reply
(counting and recording only on reply success). -/
def processTweetHH (env : Env) (uid : Nat) (batchData : List Tweet)
    (media : List Media) (t : Tweet) (s0 : HHLoop) : StepOut HHLoop :=
  let s := { s0 with visited := s0.visited ++ [t.id] }
  if t.author_id == uid then .cont s
  else if s.responded.contains t.id then .cont s
  else if replyHandledHeur batchData s.responded t then
    .cont { s with responded := insertId s.responded t.id }
  else if 100 ≤ s.replies then .brk s
  else if !env.intent t.text then .cont s
  else
    match env.details t.text with
    | none => .cont s
    | some d =>
      if !media.any (isPhotoOf t) then
        let s1 := { s with events := s.events ++ [⟨t.id, s.replies⟩] }
        if env.replyOk t.id then
          .cont { s1 with replies := s1.replies + 1,
                          newResponded := insertId s1.newResponded t.id }
        else .cont s1
      else
        match media.find? (isPhotoOf t) with
        | none => .cont s
        | some im =>
          match im.url with
          | none => .cont s
          | some u =>
            if !env.downloadOk u then .cont s
            else
              let r := env.coin d
              if r.success && r.mintAddress.isSome then
                let s1 := { s with events := s.events ++ [⟨t.id, s.replies⟩] }
                if env.replyOk t.id then
                  .cont { s1 with replies := s1.replies + 1,
                                  newResponded := insertId s1.newResponded t.id }
                else .cont s1
              else .cont s

/-- Extract the carried state from a loop step result. -/
def StepOut.state {σ : Type} : StepOut σ → σ
  | .cont s => s
  | .brk s => s

/-! ### Concrete fixtures used by counterexamples and witnesses -/

def dJan5 : CalDate := ⟨2024, 1, 5⟩

def dFeb5 : CalDate := ⟨2024, 2, 5⟩

def dFeb6 : CalDate := ⟨2024, 2, 6⟩

/-- Environment in which every external call succeeds and every tweet is
a token request (details `Nova`/`NVA`). -/
def envAllYes : Env :=
  { userId := some 5, fetchFails := false,
    intent := fun _ => true,
    details := fun _ => some ⟨"Nova", "NVA", none⟩,
    coin := fun _ => ⟨true, some "mint1"⟩,
    replyOk := fun _ => true,
    downloadOk := fun _ => true, now := 0 }

/-- Environment in which extraction always fails. -/
def envNoDetails : Env :=
  { envAllYes with details := fun _ => none }

/-- Environment in which only the text `"req"` is classified as a token
request. -/
def envPosNeg : Env :=
  { envAllYes with intent := fun t => t == "req" }

/-- Environment for the PG counterexample run (the PG job takes its user
id from configuration, here 9). -/
def envPG : Env :=
  { envAllYes with userId := some 9 }

/-- Two mentions, newest first, authored by user 7, no attachments. -/
def tlTwo : Batch := ⟨[⟨2, 7, "b", []⟩, ⟨1, 7, "a", []⟩], [], []⟩

/-- Newest mention has negative intent text, oldest is a request. -/
def tlPosNeg : Batch := ⟨[⟨2, 7, "no", []⟩, ⟨1, 7, "req", []⟩], [], []⟩

/-- A single self-authored mention (author = bot user 5). -/
def tlSelf : Batch := ⟨[⟨1, 5, "a", []⟩], [], []⟩

/-- A single mention by user 7. -/
def tlOne : Batch := ⟨[⟨1, 7, "a", []⟩], [], []⟩

/-- Fresh TS1 state (no cursor, not first run, counter 0). -/
def s0TS : BotState := ⟨[], 0, dJan5, none, false⟩

/-- TS1 state one reply below the daily maximum of 17. -/
def s16TS : BotState := ⟨[], 16, dJan5, none, false⟩

/-- TS1 state with counter 3, used by the day-reset counterexample. -/
def s3TS : BotState := ⟨[], 3, dJan5, none, false⟩

/-- PG state one reply below the daily maximum of 100. -/
def s99PG : PgState := ⟨[], 99, dJan5, none, false⟩

/-! ### C3 — day-boundary reset -/

/-- Claim C3 counterexample: with stored reset date 2024-01-05 and a
cycle on 2024-02-05 — a strictly later calendar date — the counter is
not reset, because `checkAndResetDaily` compares only `getDate()`
(day-of-month), which is 5 on both dates. -/
theorem c3_counterexample :
    CalDate.before dJan5 dFeb5 = true ∧
    checkAndResetDaily dFeb5 s3TS = s3TS ∧
    (checkAndResetDaily dFeb5 s3TS).repliesToday = 3 := by
  refine ⟨by decide, by decide, by decide⟩

/-- Claim C3 (amended): when the cycle date's day-of-month differs from
the stored reset date's day-of-month, the counter is reset to 0 and the
reset date updated; the reset is idempotent (it happens exactly once, at
the first such cycle); and the reset is applied before the budget gate is
evaluated — the whole TS1 cycle behaves as if started from the reset
state.  (A later calendar date with the same day-of-month, e.g. exactly
one month later, does not trigger a reset.) -/
theorem c3_reset_on_day_change (now : CalDate) (s : BotState)
    (h : now.day ≠ s.lastReset.day) :
    (checkAndResetDaily now s).repliesToday = 0 ∧
    (checkAndResetDaily now s).lastReset = now ∧
    checkAndResetDaily now (checkAndResetDaily now s) =
      checkAndResetDaily now s ∧
    (∀ env tl uid, env.userId = some uid →
      checkMentionsJobTS1 env tl now s =
        checkMentionsJobTS1 env tl now
          { s with repliesToday := 0, lastReset := now }) := by
  have e1 : checkAndResetDaily now s =
      { s with repliesToday := 0, lastReset := now } := by
    simp [checkAndResetDaily, h]
  have e2 : checkAndResetDaily now { s with repliesToday := 0, lastReset := now } =
      { s with repliesToday := 0, lastReset := now } := by
    simp [checkAndResetDaily]
  refine ⟨by rw [e1], by rw [e1], by rw [e1, e2], ?_⟩
  intro env tl uid hu
  unfold checkMentionsJobTS1
  rw [hu, e1, e2]

/-- Witness for `c3_reset_on_day_change` at a concrete date change. -/
theorem c3_witness : (checkAndResetDaily dFeb6 s3TS).repliesToday = 0 :=
  (c3_reset_on_day_change dFeb6 s3TS (by decide)).1

/-! ### C5 — sanitization of extracted name/symbol -/

/-- Claim C5 counterexample: sanitizing the name `"toktokenen"` removes
the inner occurrence of `token` and splices the remaining characters
into a new occurrence, so the extraction result carries the name
`"token"`, which still contains the reserved substring. -/
theorem c5_counterexample :
    analyzeTokenDetailsHH (some "toktokenen") (some "ABC") none =
      some ⟨"token", "ABC", none⟩ ∧
    (analyzeTokenDetailsHH (some "toktokenen") (some "ABC") none).map
      (fun td => containsCI "token" td.name) = some true := by
  refine ⟨by decide, by decide⟩

/-- Claim C5 (amended): for non-empty raw name and symbol, extraction
returns `none` whenever sanitization empties either field, and otherwise
returns exactly the sanitized fields.  The sanitizer is a single
left-to-right case-insensitive removal pass, and its output can still
contain `token`/`coin` when a removal splices the surrounding characters
into a new occurrence. -/
theorem c5_sanitize_empty_none (n y : String) (d : Option String)
    (hn : n ≠ "") (hy : y ≠ "") :
    (sanitizeName n = "" ∨ sanitizeName y = "" →
      analyzeTokenDetailsHH (some n) (some y) d = none) ∧
    (sanitizeName n ≠ "" → sanitizeName y ≠ "" →
      analyzeTokenDetailsHH (some n) (some y) d =
        some ⟨sanitizeName n, sanitizeName y,
              if falsy d then none else d⟩) := by
  have hfn : falsy (some n) = false := by
    simp [falsy, hn]
  have hfy : falsy (some y) = false := by
    simp [falsy, hy]
  constructor
  · intro hempty
    unfold analyzeTokenDetailsHH
    rw [hfn, hfy]
    simp only [Bool.or_self, Bool.false_eq_true, if_false, Option.getD_some]
    rcases hempty with hh | hh <;> simp [hh]
  · intro h1 h2
    unfold analyzeTokenDetailsHH
    rw [hfn, hfy]
    simp only [Bool.or_self, Bool.false_eq_true, if_false, Option.getD_some]
    simp [h1, h2]

/-- Witness for `c5_sanitize_empty_none` on a clean name/symbol. -/
theorem c5_witness :
    analyzeTokenDetailsHH (some "Nova") (some "NVA") none =
      some ⟨"Nova", "NVA", none⟩ := by
  have h := (c5_sanitize_empty_none "Nova" "NVA" none
    (by decide) (by decide)).2 (by decide) (by decide)
  exact h.trans (by decide)

/-! ### C7 — creation orchestrator failure handling -/

/-- Claim C7 counterexample: when every HTTP step succeeds but the
creation response carries no `mintAddress`, `createCoin` reports
`success: true` with no resource identifier — a partial success, not the
`Failure` the claim requires for a failed response-parsing step. -/
theorem c7_counterexample :
    (createCoinHH ⟨true, some (some "tok1"), some none⟩).success = true ∧
    (createCoinHH ⟨true, some (some "tok1"), some none⟩).mintAddress
      = none := by
  exact ⟨rfl, rfl⟩

/-- Claim C7 (amended): `createCoin` is total (no error escapes); every
throwing step — key derivation/signing, the auth exchange, a response
without a token (which makes the token-prefix logging throw), or the
multipart submission — yields `{success := false, mintAddress := none}`,
and a `false` result never carries an identifier.  A completed
submission, however, is reported as `success := true` with whatever
optional `mintAddress` the response carried — possibly none. -/
theorem c7_failure_total (env : CreateCoinEnv) :
    ((createCoinHH env).success = false →
      (createCoinHH env).mintAddress = none) ∧
    (env.keyDecodeOk = false ∨ env.authResult = none ∨
        env.authResult = some none ∨ env.createResult = none →
      createCoinHH env = ⟨false, none⟩) ∧
    ((createCoinHH env).success = true →
      env.keyDecodeOk = true ∧
      (∃ tok, env.authResult = some (some tok)) ∧
      env.createResult = some (createCoinHH env).mintAddress) := by
  obtain ⟨k, a, c⟩ := env
  cases k <;> rcases a with _ | ⟨_ | tok⟩ <;> rcases c with _ | mint <;>
    simp [createCoinHH]

/-- Witness for `c7_failure_total`: a failed key derivation yields the
failure result. -/
theorem c7_witness : createCoinHH ⟨false, none, none⟩ = ⟨false, none⟩ :=
  (c7_failure_total ⟨false, none, none⟩).2.1 (Or.inl rfl)

/-! ### C8 — idempotent dedup-ledger commit -/

/-- A `markTweetAsProcessed` call always leaves a row for the id in the table. -/
theorem mark_any_after (db : List ProcessedRecord) (id n : Nat) :
    (markTweetAsProcessed db id n).any (fun r => r.tweet_id == id)
      = true := by
  unfold markTweetAsProcessed
  by_cases h : db.any (fun r => r.tweet_id == id) = true
  · simp [h]
  · simp only [h, if_false, List.any_append, List.any_cons, List.any_nil]
    simp

/-- Claim C8: the dedup-ledger commit is idempotent and keeps exactly one
record per mention id — both for the PG table (`ON CONFLICT DO NOTHING`
against the primary key) and for the in-memory `respondedTweets` set. -/
theorem c8_commit_idempotent (db : List ProcessedRecord) (id n1 n2 : Nat)
    (l : List Nat) (i : Nat)
    (hdb : (db.map ProcessedRecord.tweet_id).Nodup) (hl : l.Nodup) :
    markTweetAsProcessed (markTweetAsProcessed db id n1) id n2 =
      markTweetAsProcessed db id n1 ∧
    ((markTweetAsProcessed db id n1).map ProcessedRecord.tweet_id).count id
      = 1 ∧
    ((markTweetAsProcessed db id n1).map ProcessedRecord.tweet_id).Nodup ∧
    insertId (insertId l i) i = insertId l i ∧
    (insertId l i).count i = 1 ∧
    (insertId l i).Nodup := by
  have hidem : markTweetAsProcessed (markTweetAsProcessed db id n1) id n2 =
      markTweetAsProcessed db id n1 := by
    unfold markTweetAsProcessed
    by_cases h : db.any (fun r => r.tweet_id == id) = true
    · simp [h]
    · have hc : ((db ++ [⟨id, n1⟩] : List ProcessedRecord).any
          (fun r => r.tweet_id == id)) = true := by simp
      rw [if_neg h, if_pos hc]
  refine ⟨hidem, ?_, ?_, ?_, ?_, ?_⟩
  · by_cases h : db.any (fun r => r.tweet_id == id) = true
    · have hmem : id ∈ db.map ProcessedRecord.tweet_id := by
        rw [List.any_eq_true] at h
        obtain ⟨r, hr, he⟩ := h
        exact List.mem_map.mpr ⟨r, hr, by simpa using he⟩
      rw [show markTweetAsProcessed db id n1 = db by
        unfold markTweetAsProcessed; simp [h]]
      exact List.count_eq_one_of_mem hdb hmem
    · have hmem : id ∉ db.map ProcessedRecord.tweet_id := by
        intro hc
        apply h
        rw [List.any_eq_true]
        obtain ⟨r, hr, he⟩ := List.mem_map.mp hc
        exact ⟨r, hr, by simp [he]⟩
      rw [show markTweetAsProcessed db id n1 = db ++ [⟨id, n1⟩] by
        unfold markTweetAsProcessed; simp [h]]
      rw [List.map_append, List.count_append]
      simp [List.count_eq_zero.mpr hmem]
  · by_cases h : db.any (fun r => r.tweet_id == id) = true
    · rw [show markTweetAsProcessed db id n1 = db by
        unfold markTweetAsProcessed; simp [h]]
      exact hdb
    · have hmem : id ∉ db.map ProcessedRecord.tweet_id := by
        intro hc
        apply h
        rw [List.any_eq_true]
        obtain ⟨r, hr, he⟩ := List.mem_map.mp hc
        exact ⟨r, hr, by simp [he]⟩
      rw [show markTweetAsProcessed db id n1 = db ++ [⟨id, n1⟩] by
        unfold markTweetAsProcessed; simp [h]]
      rw [List.map_append]
      simp [List.nodup_append, hdb, hmem]
  · unfold insertId
    by_cases h : i ∈ l
    · simp [h]
    · simp [h]
  · unfold insertId
    by_cases h : i ∈ l
    · simp [h, List.count_eq_one_of_mem hl h]
    · simp [h, List.count_append, List.count_eq_zero.mpr h]
  · unfold insertId
    by_cases h : i ∈ l
    · simp [h, hl]
    · simp [List.nodup_append, h, hl]

/-- Witness for `c8_commit_idempotent` on a one-row table and the
singleton set. -/
theorem c8_witness :
    markTweetAsProcessed (markTweetAsProcessed [⟨1, 0⟩] 1 7) 1 8 =
      markTweetAsProcessed [⟨1, 0⟩] 1 7 ∧
    ((markTweetAsProcessed [⟨1, 0⟩] 1 7).map
      ProcessedRecord.tweet_id).count 1 = 1 := by
  have h := c8_commit_idempotent [⟨1, 0⟩] 1 7 8 [1] 1
    (by decide) (by decide)
  exact ⟨h.1, h.2.1⟩

/-! ### Loop instrumentation lemmas -/

/-- A TS1 loop iteration either leaves the event list unchanged or, only
when the budget gate was open (`replies < 17`), appends the one
reply-send attempt for this tweet, stamped with the counter value at the
send instant. -/
theorem ts1_step_events (env : Env) (uid : Nat) (bd : List Tweet)
    (t : Tweet) (s : TS1Loop) :
    ((processTweetTS1 env uid bd t s).state).events = s.events ∨
    (s.replies < 17 ∧
      ((processTweetTS1 env uid bd t s).state).events =
        s.events ++ [⟨t.id, s.replies⟩]) := by
  unfold processTweetTS1
  by_cases h1 : t.author_id = uid
  · simp [h1, StepOut.state]
  · by_cases h2 : t.id ∈ s.responded
    · simp [h1, h2, StepOut.state]
    · by_cases h3 : replyHandledHeur bd s.responded t = true
      · simp [h1, h2, h3, StepOut.state]
      · by_cases h4 : 17 ≤ s.replies
        · simp [h1, h2, h3, h4, StepOut.state]
        · by_cases h5 : env.intent t.text = true
          · cases hd : env.details t.text with
            | none => simp [h1, h2, h3, h4, h5, hd, StepOut.state]
            | some d =>
              by_cases h6 : env.replyOk t.id = true
              · right
                refine ⟨Nat.lt_of_not_le h4, ?_⟩
                simp [h1, h2, h3, h4, h5, hd, h6, StepOut.state]
              · right
                refine ⟨Nat.lt_of_not_le h4, ?_⟩
                simp [h1, h2, h3, h4, h5, hd, h6, StepOut.state]
          · simp [h1, h2, h3, h4, h5, StepOut.state]

/-- Every event produced by a TS1 loop run was either already present or
was recorded with the counter strictly below the daily maximum. -/
theorem ts1_loop_events (env : Env) (uid : Nat) (bd : List Tweet) :
    ∀ (ts : List Tweet) (s : TS1Loop) (e : SendEvent),
      e ∈ (runTS1Loop env uid bd ts s).events →
      e ∈ s.events ∨ e.countAtSend < 17 := by
  intro ts
  induction ts with
  | nil => intro s e he; exact Or.inl he
  | cons t ts ih =>
    intro s e he
    have hstep := ts1_step_events env uid bd t s
    unfold runTS1Loop at he
    cases hres : processTweetTS1 env uid bd t s with
    | cont s2 =>
      rw [hres] at he
      rw [hres] at hstep
      simp only [StepOut.state] at hstep
      rcases ih s2 e he with h | h
      · rcases hstep with h2 | ⟨hlt, h2⟩
        · exact Or.inl (h2 ▸ h)
        · rw [h2] at h
          rcases List.mem_append.mp h with h3 | h3
          · exact Or.inl h3
          · right
            have : e = ⟨t.id, s.replies⟩ := by simpa using h3
            rw [this]
            exact hlt
      · exact Or.inr h
    | brk s2 =>
      rw [hres] at he
      rw [hres] at hstep
      simp only [StepOut.state] at hstep
      rcases hstep with h2 | ⟨hlt, h2⟩
      · exact Or.inl (h2 ▸ he)
      · rw [h2] at he
        rcases List.mem_append.mp he with h3 | h3
        · exact Or.inl h3
        · right
          have : e = ⟨t.id, s.replies⟩ := by simpa using h3
          rw [this]
          exact hlt

/-! ### C1 — budget gate before every reply send -/

/-- Claim C1 (amended, TS1): in the `twitter.service.ts` cycle the gate
`repliesToday >= 17` is re-checked for every mention before it is
processed, so at the instant of every reply-send attempt the counter is
strictly below the daily maximum — once the counter reaches 17 no
further reply is attempted until a day change resets it.  (The claim as
stated fails for the `app.module.ts` variant, which checks the gate only
at cycle start — see the counterexample.) -/
theorem c1_gate_before_send_ts1 (env : Env) (tl : Batch) (today : CalDate)
    (s : BotState) (e : SendEvent)
    (he : e ∈ (checkMentionsJobTS1 env tl today s).2.1) :
    e.countAtSend < 17 := by
  unfold checkMentionsJobTS1 at he
  cases hu : env.userId with
  | none => rw [hu] at he; simp at he
  | some uid =>
    rw [hu] at he
    simp only at he
    by_cases hg : 17 ≤ (checkAndResetDaily today s).repliesToday
    · rw [if_pos hg] at he; simp at he
    · rw [if_neg hg] at he
      cases hf : (fetchMentions tl env.fetchFails
          (checkAndResetDaily today s).lastProcessedTweetId
          (checkAndResetDaily today s).isFirstRun).1 with
      | none => rw [hf] at he; simp at he
      | some b =>
        rw [hf] at he
        simp only at he
        rcases ts1_loop_events env uid b.data b.data.reverse _ e he with
          h | h
        · simp at h
        · exact h

/-- Witness for `c1_gate_before_send_ts1`: a concrete cycle that sends
one reply, whose event carries counter value 0. -/
theorem c1_witness : (⟨1, 0⟩ : SendEvent).countAtSend < 17 :=
  c1_gate_before_send_ts1 envAllYes tlOne dJan5 s0TS ⟨1, 0⟩ (by decide)

/-- Claim C1 counterexample (PG variant): starting one reply below the
maximum of 100, a cycle with two image-less token requests attempts a
second reply at counter value 100 — the gate is not re-evaluated inside
the loop, the counter reaches 101, and a reply is sent at the very
instant the counter equals the maximum. -/
theorem c1_counterexample :
    (checkMentionsJobPG envPG tlTwo dJan5 (some 9) s99PG).2.1 =
      [⟨1, 99⟩, ⟨2, 100⟩] ∧
    (checkMentionsJobPG envPG tlTwo dJan5 (some 9) s99PG).1.repliesToday
      = 101 ∧
    ¬ (∀ e ∈ (checkMentionsJobPG envPG tlTwo dJan5 (some 9) s99PG).2.1,
        e.countAtSend < 100) := by
  refine ⟨by decide, by decide, by decide⟩

/-! ### C4 — commits of fully-decided mentions -/

/-- Claim C4 counterexample (TS1): a self-authored mention is skipped
without any ledger commit; and once the budget is exhausted mid-cycle
the loop breaks before classifying the next mention, so a
negative-intent mention is not committed either.  Run A: a self-authored
mention leaves the ledger empty.  Run B: starting at counter 16, the
older request consumes the last budget unit and the newer
negative-intent mention (id 2) is left uncommitted. -/
theorem c4_counterexample :
    (checkMentionsJobTS1 envAllYes tlSelf dJan5 s0TS).1.respondedTweets
      = [] ∧
    (checkMentionsJobTS1 envPosNeg tlPosNeg dJan5 s16TS).1.respondedTweets
      = [1] ∧
    (checkMentionsJobTS1 envPosNeg tlPosNeg dJan5 s16TS).1.repliesToday
      = 17 := by
  refine ⟨by decide, by decide, by decide⟩

/-- Claim C4 (amended, TS1): a self-authored mention is skipped without
a commit; a negative-intent mention is committed exactly when it is
reached with the gate still open; once the counter has reached 17 the
loop breaks at the gate before classification, committing nothing —
so no commit of a gate-closed mention happens except through the
reply-chain heuristic. -/
theorem c4_commit_policy (env : Env) (uid : Nat) (bd : List Tweet)
    (t : Tweet) (s : TS1Loop) :
    (t.author_id = uid →
      processTweetTS1 env uid bd t s =
        .cont { s with visited := s.visited ++ [t.id] }) ∧
    (t.author_id ≠ uid → s.responded.contains t.id = false →
      replyHandledHeur bd s.responded t = false →
      s.replies < 17 → env.intent t.text = false →
      processTweetTS1 env uid bd t s =
        .cont { s with responded := insertId s.responded t.id,
                       visited := s.visited ++ [t.id] }) ∧
    (t.author_id ≠ uid → s.responded.contains t.id = false →
      replyHandledHeur bd s.responded t = false →
      17 ≤ s.replies →
      processTweetTS1 env uid bd t s =
        .brk { s with visited := s.visited ++ [t.id] }) := by
  refine ⟨?_, ?_, ?_⟩
  · intro h
    unfold processTweetTS1
    simp [h]
  · intro h1 h2 h3 h4 h5
    have h2m : t.id ∉ s.responded := by simpa using h2
    unfold processTweetTS1
    simp [h1, h2m, h3, Nat.not_le_of_lt h4, h5]
  · intro h1 h2 h3 h4
    have h2m : t.id ∉ s.responded := by simpa using h2
    unfold processTweetTS1
    simp [h1, h2m, h3, h4]

/-- Witness for `c4_commit_policy`: concrete instances of all three
branches. -/
theorem c4_witness :
    processTweetTS1 envAllYes 5 [] ⟨1, 5, "a", []⟩ ⟨[], 0, [], []⟩ =
      .cont ⟨[], 0, [], [1]⟩ ∧
    processTweetTS1 envPosNeg 5 [] ⟨1, 7, "no", []⟩ ⟨[], 0, [], []⟩ =
      .cont ⟨[1], 0, [], [1]⟩ ∧
    processTweetTS1 envAllYes 5 [] ⟨1, 7, "a", []⟩ ⟨[], 17, [], []⟩ =
      .brk ⟨[], 17, [], [1]⟩ := by
  refine ⟨?_, ?_, ?_⟩
  · exact ((c4_commit_policy envAllYes 5 [] ⟨1, 5, "a", []⟩
      ⟨[], 0, [], []⟩).1 rfl).trans (by decide)
  · exact ((c4_commit_policy envPosNeg 5 [] ⟨1, 7, "no", []⟩
      ⟨[], 0, [], []⟩).2.1 (by decide) (by decide) (by decide)
      (by decide) (by decide)).trans (by decide)
  · exact ((c4_commit_policy envAllYes 5 [] ⟨1, 7, "a", []⟩
      ⟨[], 17, [], []⟩).2.2 (by decide) (by decide) (by decide)
      (by decide)).trans (by decide)

/-! ### C10 — failed reply send leaves the state unchanged -/

/-- Claim C10: in both `twitter.service.ts` variants, when a mention
reaches the reply stage and the send fails, the daily counter is not
incremented and the mention is not committed — increment and commit are
performed only under a successful send. -/
theorem c10_failed_send_no_effect (env : Env) (uid : Nat)
    (bd : List Tweet) (media : List Media) (t : Tweet) (d : TokenDetails)
    (s : TS1Loop) (s2 : HHLoop)
    (hA : (t.author_id == uid) = false)
    (hI : env.intent t.text = true)
    (hD : env.details t.text = some d)
    (hRep : env.replyOk t.id = false) :
    (s.responded.contains t.id = false →
      replyHandledHeur bd s.responded t = false → s.replies < 17 →
      ∃ s3, processTweetTS1 env uid bd t s = .cont s3 ∧
        s3.replies = s.replies ∧ s3.responded = s.responded) ∧
    (s2.responded.contains t.id = false →
      replyHandledHeur bd s2.responded t = false → s2.replies < 100 →
      ∃ s3, processTweetHH env uid bd media t s2 = .cont s3 ∧
        s3.replies = s2.replies ∧ s3.responded = s2.responded ∧
        s3.newResponded = s2.newResponded) := by
  have hAne : t.author_id ≠ uid := by simpa using hA
  constructor
  · intro h2 h3 h4
    have h2m : t.id ∉ s.responded := by simpa using h2
    refine ⟨{ s with
                events := s.events ++ [⟨t.id, s.replies⟩],
                visited := s.visited ++ [t.id] }, ?_, rfl, rfl⟩
    unfold processTweetTS1
    simp [hAne, h2m, h3, Nat.not_le_of_lt h4, hI, hD, hRep]
  · intro h2 h3 h4
    have h2m : t.id ∉ s2.responded := by simpa using h2
    by_cases h5 : media.any (isPhotoOf t) = true
    · cases hfind : media.find? (isPhotoOf t) with
      | none =>
        refine ⟨{ s2 with visited := s2.visited ++ [t.id] }, ?_,
          rfl, rfl, rfl⟩
        unfold processTweetHH
        simp [hAne, h2m, h3, Nat.not_le_of_lt h4, hI, hD, h5, hfind]
      | some im =>
        cases hurl : im.url with
        | none =>
          refine ⟨{ s2 with visited := s2.visited ++ [t.id] }, ?_,
            rfl, rfl, rfl⟩
          unfold processTweetHH
          simp [hAne, h2m, h3, Nat.not_le_of_lt h4, hI, hD, h5, hfind,
            hurl]
        | some u =>
          by_cases h6 : env.downloadOk u = true
          · by_cases h7 : ((env.coin d).success &&
                (env.coin d).mintAddress.isSome) = true
            · refine ⟨{ s2 with
                  events := s2.events ++ [⟨t.id, s2.replies⟩],
                  visited := s2.visited ++ [t.id] }, ?_, rfl, rfl, rfl⟩
              unfold processTweetHH
              simp [hAne, h2m, h3, Nat.not_le_of_lt h4, hI, hD, h5,
                hfind, hurl, h6, h7, hRep]
            · refine ⟨{ s2 with visited := s2.visited ++ [t.id] }, ?_,
                rfl, rfl, rfl⟩
              unfold processTweetHH
              simp [hAne, h2m, h3, Nat.not_le_of_lt h4, hI, hD, h5,
                hfind, hurl, h6, h7]
          · refine ⟨{ s2 with visited := s2.visited ++ [t.id] }, ?_,
              rfl, rfl, rfl⟩
            unfold processTweetHH
            simp [hAne, h2m, h3, Nat.not_le_of_lt h4, hI, hD, h5, hfind,
              hurl, h6]
    · refine ⟨{ s2 with
          events := s2.events ++ [⟨t.id, s2.replies⟩],
          visited := s2.visited ++ [t.id] }, ?_, rfl, rfl, rfl⟩
      unfold processTweetHH
      simp [hAne, h2m, h3, Nat.not_le_of_lt h4, hI, hD, h5, hRep]

/-- Witness for `c10_failed_send_no_effect`: a concrete mention whose
reply send fails, in both variants, leaving counter and ledger
untouched. -/
theorem c10_witness :
    (∃ s3, processTweetTS1 { envAllYes with replyOk := fun _ => false }
        5 [] ⟨1, 7, "a", []⟩ ⟨[], 4, [], []⟩ = .cont s3 ∧
      s3.replies = 4 ∧ s3.responded = []) ∧
    (∃ s3, processTweetHH { envAllYes with replyOk := fun _ => false }
        5 [] [] ⟨1, 7, "a", []⟩ ⟨[], [], 4, [], []⟩ = .cont s3 ∧
      s3.replies = 4 ∧ s3.responded = [] ∧ s3.newResponded = []) := by
  have h := c10_failed_send_no_effect
    { envAllYes with replyOk := fun _ => false } 5 [] []
    ⟨1, 7, "a", []⟩ ⟨"Nova", "NVA", none⟩ ⟨[], 4, [], []⟩
    ⟨[], [], 4, [], []⟩ (by decide) (by decide) (by decide) (by decide)
  exact ⟨h.1 (by decide) (by decide) (by decide),
         h.2 (by decide) (by decide) (by decide)⟩

/-! ### C6 — oldest-first processing order -/

/-- Every TS1 loop iteration first records the current tweet in the
visit trace, whatever branch it then takes. -/
theorem ts1_step_visited (env : Env) (uid : Nat) (bd : List Tweet)
    (t : Tweet) (s : TS1Loop) :
    ((processTweetTS1 env uid bd t s).state).visited =
      s.visited ++ [t.id] := by
  unfold processTweetTS1
  by_cases h1 : t.author_id = uid
  · simp [h1, StepOut.state]
  · by_cases h2 : t.id ∈ s.responded
    · simp [h1, h2, StepOut.state]
    · by_cases h3 : replyHandledHeur bd s.responded t = true
      · simp [h1, h2, h3, StepOut.state]
      · by_cases h4 : 17 ≤ s.replies
        · simp [h1, h2, h3, h4, StepOut.state]
        · by_cases h5 : env.intent t.text = true
          · cases hd : env.details t.text with
            | none => simp [h1, h2, h3, h4, h5, hd, StepOut.state]
            | some d =>
              by_cases h6 : env.replyOk t.id = true
              · simp [h1, h2, h3, h4, h5, hd, h6, StepOut.state]
              · simp [h1, h2, h3, h4, h5, hd, h6, StepOut.state]
          · simp [h1, h2, h3, h4, h5, StepOut.state]

/-- The TS1 loop visits an initial segment of its iteration list, in
order, and visits at least the first element when the list is
non-empty. -/
theorem ts1_loop_visited (env : Env) (uid : Nat) (bd : List Tweet) :
    ∀ (ts : List Tweet) (s : TS1Loop),
      ∃ n, (runTS1Loop env uid bd ts s).visited =
        s.visited ++ (ts.map Tweet.id).take n ∧ (ts ≠ [] → 1 ≤ n) := by
  intro ts
  induction ts with
  | nil => intro s; exact ⟨0, by simp [runTS1Loop], by simp⟩
  | cons t ts ih =>
    intro s
    have hv := ts1_step_visited env uid bd t s
    unfold runTS1Loop
    cases hres : processTweetTS1 env uid bd t s with
    | cont s2 =>
      rw [hres] at hv
      simp only [StepOut.state] at hv
      obtain ⟨n, hn, _⟩ := ih s2
      refine ⟨n + 1, ?_, fun _ => Nat.le_add_left 1 n⟩
      rw [hn, hv, List.map_cons, List.take_succ_cons]
      simp
    | brk s2 =>
      rw [hres] at hv
      simp only [StepOut.state] at hv
      refine ⟨1, ?_, fun _ => Nat.le_refl 1⟩
      rw [hv, List.map_cons, List.take_succ_cons, List.take_zero]

/-- Every PG loop iteration also records the tweet first. -/
theorem pg_step_visited (env : Env) (uid : Nat) (media : List Media)
    (t : Tweet) (s : PgLoop) :
    (processTweetPG env uid media t s).visited = s.visited ++ [t.id] := by
  unfold processTweetPG
  by_cases h1 : (s.db.any fun r => r.tweet_id == t.id) = true
  · simp [h1]
  · by_cases h2 : t.author_id = uid
    · simp [h1, h2]
    · by_cases h3 : env.intent t.text = true
      · cases hd : env.details t.text with
        | none => simp [h1, h2, h3, hd]
        | some d =>
          by_cases h4 : media.any (isPhotoOf t) = true
          · cases hfind : media.find? (isPhotoOf t) with
            | none => simp [h1, h2, h3, hd, h4, hfind]
            | some im =>
              cases hurl : im.url with
              | none => simp [h1, h2, h3, hd, h4, hfind, hurl]
              | some u =>
                by_cases h5 : env.downloadOk u = true
                · by_cases h6 : ((env.coin d).success &&
                      (env.coin d).mintAddress.isSome) = true
                  · by_cases h7 : env.replyOk t.id = true
                    · simp [h1, h2, h3, hd, h4, hfind, hurl, h5, h6, h7]
                    · simp [h1, h2, h3, hd, h4, hfind, hurl, h5, h6, h7]
                  · simp [h1, h2, h3, hd, h4, hfind, hurl, h5, h6]
                · simp [h1, h2, h3, hd, h4, hfind, hurl, h5]
          · by_cases h7 : env.replyOk t.id = true
            · simp [h1, h2, h3, hd, h4, h7]
            · simp [h1, h2, h3, hd, h4, h7]
      · simp [h1, h2, h3]

/-- The PG loop (a fold without break) visits its whole iteration list
in order. -/
theorem pg_loop_visited (env : Env) (uid : Nat) (media : List Media) :
    ∀ (ts : List Tweet) (s : PgLoop),
      (ts.foldl (fun acc t => processTweetPG env uid media t acc)
        s).visited = s.visited ++ ts.map Tweet.id := by
  intro ts
  induction ts with
  | nil => intro s; simp
  | cons t ts ih =>
    intro s
    rw [List.foldl_cons, ih, pg_step_visited]
    simp

/-- Claim C6: both cycle drivers iterate `[...mentions.data].reverse()`:
the TS1 cycle visits an initial segment of the reversed batch, starting
(when the batch is non-empty) with the oldest mention — the last element
of the newest-first batch; the PG cycle visits exactly the reversed
batch. -/
theorem c6_oldest_first (env : Env) (tl : Batch) (today : CalDate)
    (s : BotState) (uid : Nat) (b : Batch) (cur : Option Nat) (fb : Bool)
    (hu : env.userId = some uid)
    (hg : (checkAndResetDaily today s).repliesToday < 17)
    (hf : fetchMentions tl env.fetchFails
      (checkAndResetDaily today s).lastProcessedTweetId
      (checkAndResetDaily today s).isFirstRun = (some b, cur, fb)) :
    (∃ n, (checkMentionsJobTS1 env tl today s).2.2 =
      ((b.data.reverse).map Tweet.id).take n) ∧
    (b.data ≠ [] →
      ((checkMentionsJobTS1 env tl today s).2.2).head? =
        (b.data.map Tweet.id).getLast?) ∧
    (∀ (envp : Env) (tlp : Batch) (dp : CalDate) (uidp : Nat)
        (sp : PgState) (bp : Batch) (curp : Option Nat) (fbp : Bool),
      (checkAndResetDailyPg dp sp).repliesToday < 100 →
      fetchMentions tlp envp.fetchFails
        (checkAndResetDailyPg dp sp).lastProcessedTweetId
        (checkAndResetDailyPg dp sp).isFirstRun = (some bp, curp, fbp) →
      (checkMentionsJobPG envp tlp dp (some uidp) sp).2.2 =
        (bp.data.reverse).map Tweet.id) := by
  have hmain : (checkMentionsJobTS1 env tl today s).2.2 =
      (runTS1Loop env uid b.data b.data.reverse
        ⟨(checkAndResetDaily today s).respondedTweets,
         (checkAndResetDaily today s).repliesToday, [], []⟩).visited := by
    unfold checkMentionsJobTS1
    rw [hu]
    simp only
    rw [if_neg (Nat.not_le_of_lt hg), hf]
  obtain ⟨n, hn, hne⟩ := ts1_loop_visited env uid b.data b.data.reverse
    ⟨(checkAndResetDaily today s).respondedTweets,
     (checkAndResetDaily today s).repliesToday, [], []⟩
  refine ⟨⟨n, by rw [hmain, hn]; simp⟩, ?_, ?_⟩
  · intro hb
    have hrev : b.data.reverse ≠ [] := by simpa using hb
    have h1n : 1 ≤ n := hne hrev
    rw [hmain, hn]
    simp only [List.nil_append]
    rcases hrev2 : b.data.reverse with _ | ⟨x, xs⟩
    · exact absurd hrev2 hrev
    · obtain ⟨m, hm⟩ := Nat.exists_eq_add_of_le h1n
      have hbdata : b.data = (x :: xs).reverse := by
        rw [← hrev2, List.reverse_reverse]
      rw [List.map_cons, hm, Nat.add_comm, List.take_succ_cons,
        List.head?_cons, hbdata]
      simp
  · intro envp tlp dp uidp sp bp curp fbp hgp hfp
    have hmainp : (checkMentionsJobPG envp tlp dp (some uidp) sp).2.2 =
        ((bp.data.reverse).foldl
          (fun acc t => processTweetPG envp uidp bp.media t acc)
          ⟨(checkAndResetDailyPg dp sp).db,
           (checkAndResetDailyPg dp sp).repliesToday, [], []⟩).visited := by
      unfold checkMentionsJobPG
      rw [if_neg (Nat.not_le_of_lt hgp)]
      simp only
      rw [hfp]
    rw [hmainp, pg_loop_visited]
    simp

/-- Witness for `c6_oldest_first`: a two-mention batch is visited oldest
(id 1) first. -/
theorem c6_witness :
    (∃ n, (checkMentionsJobTS1 envAllYes tlTwo dJan5 s0TS).2.2 =
      ((tlTwo.data.reverse).map Tweet.id).take n) ∧
    (tlTwo.data ≠ [] →
      ((checkMentionsJobTS1 envAllYes tlTwo dJan5 s0TS).2.2).head? =
        (tlTwo.data.map Tweet.id).getLast?) := by
  have h := c6_oldest_first envAllYes tlTwo dJan5 s0TS 5 tlTwo (some 2)
    false (by decide) (by decide) (by decide)
  exact ⟨h.1, h.2.1⟩

/-! ### C2 — no retry of uncommitted mentions -/

/-- Shape of a successful (non-throwing) fetch: the returned mentions
are a sublist of the feed timeline, the new cursor is the id of the
newest returned mention (or the old cursor when nothing was returned),
and with a cursor present every returned mention has a strictly larger
id. -/
theorem fetchMentions_spec (tl : Batch) (cur : Option Nat) (fr : Bool)
    (b : Batch) (cur2 : Option Nat) (fr2 : Bool)
    (hf : fetchMentions tl false cur fr = (some b, cur2, fr2)) :
    b.data.Sublist tl.data ∧
    (cur2 = match b.data.head? with
            | some u => some u.id
            | none => cur) ∧
    (∀ c, cur = some c → ∀ u ∈ b.data, c < u.id) := by
  unfold fetchMentions at hf
  simp only [Bool.false_eq_true, if_false, Prod.mk.injEq,
    Option.some.injEq] at hf
  obtain ⟨hb, hcur, _⟩ := hf
  subst hb
  refine ⟨?_, by exact hcur.symm, ?_⟩
  · cases fr with
    | true =>
      cases cur with
      | none => simp only; exact List.take_sublist 5 tl.data
      | some c =>
        simpa using List.Sublist.trans
          (List.take_sublist 5 (tl.data.filter (fun t => decide (c < t.id))))
          (List.filter_sublist tl.data)
    | false =>
      cases cur with
      | none => simp only; exact List.Sublist.refl tl.data
      | some c => simp only; exact List.filter_sublist tl.data
  · intro c hc u hu
    subst hc
    have hu2 : u ∈ List.filter (fun t => decide (c < t.id)) tl.data := by
      cases fr with
      | true => exact List.mem_of_mem_take (by simpa using hu)
      | false => simpa using hu
    simpa using (List.mem_filter.mp hu2).2

/-- Claim C2 counterexample: a cycle whose two mentions both fail
extraction commits nothing, yet the cursor has already advanced to the
batch's newest id (2) at fetch time, so the next cycle's fetch returns
no mentions at all — the uncommitted mention 1 is never retried. -/
theorem c2_counterexample :
    (checkMentionsJobTS1 envNoDetails tlTwo dJan5 s0TS).1.respondedTweets
      = [] ∧
    (checkMentionsJobTS1 envNoDetails tlTwo dJan5 s0TS).1.lastProcessedTweetId
      = some 2 ∧
    (fetchMentions tlTwo false (some 2) false).1 =
      some (⟨[], [], []⟩ : Batch) := by
  refine ⟨by decide, by decide, by decide⟩

/-- Claim C2 (amended): mentions of a fetched batch — committed or not —
never reappear in a later fetch.  After a successful non-empty fetch
from a newest-first (strictly id-descending) timeline, the cursor equals
the maximum id of the batch, and every mention returned by any later
fetch through that cursor has a strictly larger id; so a mention left
uncommitted by budget exhaustion or extraction failure is dropped, not
retried. -/
theorem c2_cursor_skips_uncommitted (tl : Batch) (cur : Option Nat)
    (fr : Bool) (b : Batch) (cur2 : Option Nat) (fr2 : Bool) (t : Tweet)
    (hsorted : tl.data.Pairwise (fun a b => b.id < a.id))
    (hf : fetchMentions tl false cur fr = (some b, cur2, fr2))
    (ht : t ∈ b.data) :
    ∃ c, cur2 = some c ∧ t.id ≤ c ∧
      ∀ (tl2 : Batch) (ff2 fr3 : Bool) (b2 : Batch) (cur3 : Option Nat)
        (fr4 : Bool),
        fetchMentions tl2 ff2 (some c) fr3 = (some b2, cur3, fr4) →
        t ∉ b2.data := by
  obtain ⟨hsub, hcur, _⟩ := fetchMentions_spec tl cur fr b cur2 fr2 hf
  have hpw : b.data.Pairwise (fun a b => b.id < a.id) :=
    List.Pairwise.sublist hsub hsorted
  rcases hb2 : b.data with _ | ⟨h0, rest⟩
  · rw [hb2] at ht; exact absurd ht (List.not_mem_nil t)
  · rw [hb2] at hcur hpw ht
    simp only [List.head?_cons] at hcur
    have htle : t.id ≤ h0.id := by
      rcases List.mem_cons.mp ht with heq | hmem
      · rw [heq]
      · exact Nat.le_of_lt ((List.pairwise_cons.mp hpw).1 t hmem)
    refine ⟨h0.id, hcur, htle, ?_⟩
    intro tl2 ff2 fr3 b2 cur3 fr4 hfp hmem2
    cases ff2 with
    | true =>
      unfold fetchMentions at hfp
      simp at hfp
    | false =>
      obtain ⟨_, _, hgt⟩ :=
        fetchMentions_spec tl2 (some h0.id) fr3 b2 cur3 fr4 hfp
      have := hgt h0.id rfl t hmem2
      exact absurd htle (Nat.not_le_of_lt this)

/-- Witness for `c2_cursor_skips_uncommitted` on the concrete two-mention
timeline. -/
theorem c2_witness :
    ∃ c, (some 2 : Option Nat) = some c ∧
      (⟨1, 7, "a", []⟩ : Tweet).id ≤ c ∧
      ∀ (tl2 : Batch) (ff2 fr3 : Bool) (b2 : Batch) (cur3 : Option Nat)
        (fr4 : Bool),
        fetchMentions tl2 ff2 (some c) fr3 = (some b2, cur3, fr4) →
        (⟨1, 7, "a", []⟩ : Tweet) ∉ b2.data := by
  exact c2_cursor_skips_uncommitted tlTwo none false tlTwo (some 2) false
    ⟨1, 7, "a", []⟩ (by decide) (by decide) (by decide)

end TwBot
